import Mathlib

/-!
Verification development for the layer-stack derived-geometry engine of
`gdsfactory/technology/layer_stack.py`.

The Python source is shallowly embedded:

* `LayerLevel` / `LayerStack` become a Lean structure and an association list
  (Python dicts preserve insertion order; a dict is an association list with
  distinct keys, so theorems that depend on dict semantics carry a
  `keysNodup` hypothesis).
* Polygon regions of the external geometry kernel (an out-of-scope
  collaborator) are modelled as finite sets of polygon identifiers; the
  kernel's boolean operations become set union / intersection / difference.
* Python floats are modelled as rationals; `round(x, n)` is modelled as
  decimal rounding on rationals (ties never arise in the inputs used here).
* Fallible Python code (plain `dict[key]` access raising `KeyError`,
  `None[0]` raising `TypeError`, the `ValueError` of `LayerStack.__getitem__`)
  returns `Except PyError`.
* The KLayout 3D script is modelled as its list of emitted statements; lines
  whose text involves no float formatting are kept as literal strings, and
  `z(...)` statements are kept structured (name, zstart, zstop, label) since
  their text would require float repr formatting.
-/

namespace GdsSpec

/- Rational arithmetic is `@[irreducible]` in Batteries; making it
semireducible again lets `decide` evaluate the embedding on concrete
inputs. -/
attribute [local semireducible] Rat.mul Rat.add Rat.inv Rat.sub

/-- `Except` results of the embedded fallible code are compared in
counterexamples and witnesses. -/
instance {ε α : Type} [DecidableEq ε] [DecidableEq α] : DecidableEq (Except ε α)
  | .ok a, .ok b =>
    if h : a = b then .isTrue (by rw [h]) else .isFalse (by simp [h])
  | .ok _, .error _ => .isFalse (by simp)
  | .error _, .ok _ => .isFalse (by simp)
  | .error a, .error b =>
    if h : a = b then .isTrue (by rw [h]) else .isFalse (by simp [h])

/-- A GDS physical layer identifier `(layer number, datatype)`. -/
abbrev LayerId := ℤ × ℤ

/-- Modelled from the spec: a polygon region of the external geometry kernel,
as the finite set of elementary polygons it contains. -/
abbrev Region := Finset ℕ

/-- Modelled from the spec: `boolean_operations["or"]` of the geometry kernel
(`r1 | r2` on regions). -/
def regionOr (a b : Region) : Region := a ∪ b

/-- Modelled from the spec: `boolean_operations["and"]` of the geometry kernel. -/
def regionAnd (a b : Region) : Region := a ∩ b

/-- Modelled from the spec: `boolean_operations["not"]` of the geometry kernel
(boolean subtraction). -/
def regionNot (a b : Region) : Region := a \ b

/-- Modelled from the spec: the layer-id resolver `get_layer` mapping an
abstract layer identifier to the concrete physical id used by the geometry
snapshot; physical ids are taken as the identifiers themselves. -/
def get_layer (l : LayerId) : LayerId := l

/-- `layer_type` of a `LayerLevel` (`Literal["grow", "etch", "implant", "background"]`). -/
inductive LayerType where
  | grow
  | etch
  | implant
  | background
deriving DecidableEq, Repr

/-- The fields of `LayerLevel` that take part in the derived-geometry engine.
`layer` is `None` or a GDS pair (the `kf.LayerEnum` alternative is modelled by
its layer tuple; a tuple is always truthy, `None` is falsy). -/
structure LayerLevel where
  layer : Option LayerId
  thickness : ℚ
  zmin : ℚ
  material : Option String
  sidewall_angle : ℚ
  layer_type : LayerType
  into : Option (List String)
  derived_layer : Option LayerId
deriving DecidableEq, Repr

/-- `LayerStack.layers`: a Python dict from layer name to `LayerLevel`,
modelled as an insertion-ordered association list. -/
abbrev Stack := List (String × LayerLevel)

/-- Plain dict lookup `layers[name]` (first entry with the key; a Python dict
has unique keys). -/
def lookupLevel : Stack → String → Option LayerLevel
  | [], _ => none
  | p :: rest, n => if p.1 = n then some p.2 else lookupLevel rest n

/-- The keys of the stack dict are pairwise distinct (always true of a
Python dict; stated as a hypothesis for list-modelled stacks). -/
def keysNodup (s : Stack) : Prop := (s.map Prod.fst).Nodup

instance (s : Stack) : Decidable (keysNodup s) := by
  unfold keysNodup; infer_instance

/-- Errors surfaced by the embedded Python code. -/
inductive PyError where
  /-- `KeyError` from a plain dict lookup with a string key. -/
  | keyErrorStr : String → PyError
  /-- `KeyError` from `polygons_per_layer[layer]` (the key is a layer id or `None`). -/
  | keyErrorLayer : Option LayerId → PyError
  /-- The `ValueError` of `LayerStack.__getitem__`, enumerating all valid names. -/
  | valueErrorKeyNotIn : String → List String → PyError
  /-- `TypeError` from subscripting `None` (`layer[0]` with `layer is None`). -/
  | typeErrorNoneSubscript : PyError
deriving DecidableEq, Repr

/-- `LayerStack.__getitem__`: indexed access by name; raises a `ValueError`
listing all valid names when the key is absent. -/
def layerStackGetitem (s : Stack) (key : String) : Except PyError LayerLevel :=
  match lookupLevel s key with
  | none => .error (.valueErrorKeyNotIn key (s.map Prod.fst))
  | some level => .ok level

/-- The polygons-per-layer snapshot `component.get_polygons()`: a dict from
physical layer id to the region of polygons on that layer. -/
abbrev Snapshot := List (LayerId × Region)

/-- Plain dict lookup in the snapshot (`polygons_per_layer[layer]` succeeds
exactly when this is `some`). -/
def snapGet : Snapshot → LayerId → Option Region
  | [], _ => none
  | p :: rest, l => if p.1 = l then some p.2 else snapGet rest l

/-- The output geometry container (`component_derived`): regions per physical
layer id, fed by `shapes(layer).insert(...)`. -/
abbrev Container := List (LayerId × Region)

/-- Region currently stored in the container under a layer id (empty when the
layer holds no shapes). -/
def containerGet (c : Container) (l : LayerId) : Region := (snapGet c l).getD ∅

/-- `component_derived.shapes(l).insert(r)`: union `r` into the shapes stored
under layer `l`. -/
def containerInsert : Container → LayerId → Region → Container
  | [], l, r => [(l, r)]
  | p :: rest, l, r =>
    if p.1 = l then (p.1, p.2 ∪ r) :: rest else p :: containerInsert rest l r

/-- `etched_by` (`unetched_layers_dict`): a `defaultdict(list)` from target
layer name to the accumulated list of etch-layer names. -/
abbrev EtchDict := List (String × List String)

/-- `unetched_layers_dict[target].append(etchName)`: append to the list at the
key, creating the key at the end on first use (defaultdict semantics). -/
def dictAppend : EtchDict → String → String → EtchDict
  | [], t, e => [(t, [e])]
  | p :: rest, t, e =>
    if p.1 = t then (p.1, p.2 ++ [e]) :: rest else p :: dictAppend rest t e

/-- Lookup in the `etched_by` dict. -/
def dictGet : EtchDict → String → Option (List String)
  | [], _ => none
  | p :: rest, t => if p.1 = t then some p.2 else dictGet rest t

/-! ### Etch-resolution classification, as written in
`get_component_with_derived_layers` (lines 387-406). -/

/-- Lines 387-391: the initial `unetched_layers` list — names of levels with a
truthy `layer` and `layer_type == "grow"`, in stack order. -/
def builderGrowList (s : Stack) : List String :=
  (s.filter fun p => p.2.layer.isSome && decide (p.2.layer_type = LayerType.grow)).map
    fun p => p.1

/-- Lines 392-396: `etch_layers` — names of levels with a truthy `layer` and
`layer_type == "etch"`, in stack order. -/
def builderEtchList (s : Stack) : List String :=
  (s.filter fun p => p.2.layer.isSome && decide (p.2.layer_type = LayerType.etch)).map
    fun p => p.1

/-- Loop body for one etch target (lines 404-406): append the etch layer's
name to `etched_by[target]` and remove the target from the unetched list if
still present. -/
def builderTargetStep (en : String) (st : List String × EtchDict) (t : String) :
    List String × EtchDict :=
  (if t ∈ st.1 then st.1.erase t else st.1, dictAppend st.2 t en)

/-- Loop body for one etch layer (lines 400-406): look the layer up in the
stack dict and fold over its `into` list (`into or []`). -/
def builderEtchStep (s : Stack) (st : List String × EtchDict) (en : String) :
    List String × EtchDict :=
  match lookupLevel s en with
  | none => st
  | some level => (level.into.getD []).foldl (builderTargetStep en) st

/-- Lines 387-406 of `get_component_with_derived_layers`: the classification
pass producing (`unetched_layers`, `unetched_layers_dict`). The dict lookup
`layers[layer_name]` cannot fail there because the iterated names are keys of
the same dict. -/
def builderClassify (s : Stack) : List String × EtchDict :=
  (builderEtchList s).foldl (builderEtchStep s) (builderGrowList s, [])

/-! ### The same classification, as written independently in
`get_klayout_3d_script` (lines 199-220). -/

/-- Lines 201-205 of `get_klayout_3d_script`: initial `unetched_layers`. -/
def scriptGrowList (s : Stack) : List String :=
  (s.filter fun p => p.2.layer.isSome && decide (p.2.layer_type = LayerType.grow)).map
    fun p => p.1

/-- Lines 206-210 of `get_klayout_3d_script`: `etch_layers`. -/
def scriptEtchList (s : Stack) : List String :=
  (s.filter fun p => p.2.layer.isSome && decide (p.2.layer_type = LayerType.etch)).map
    fun p => p.1

/-- Lines 217-220 of `get_klayout_3d_script`: per-target loop body. -/
def scriptTargetStep (en : String) (st : List String × EtchDict) (t : String) :
    List String × EtchDict :=
  (if t ∈ st.1 then st.1.erase t else st.1, dictAppend st.2 t en)

/-- Lines 214-220 of `get_klayout_3d_script`: per-etch-layer loop body. -/
def scriptEtchStep (s : Stack) (st : List String × EtchDict) (en : String) :
    List String × EtchDict :=
  match lookupLevel s en with
  | none => st
  | some level => (level.into.getD []).foldl (scriptTargetStep en) st

/-- Lines 199-220 of `get_klayout_3d_script`: the emitter's own classification
pass (`layers = self.layers or {}` is the identity on the layers dict). -/
def scriptClassify (s : Stack) : List String × EtchDict :=
  (scriptEtchList s).foldl (scriptEtchStep s) (scriptGrowList s, [])

/-! ### The derived-geometry builder `get_component_with_derived_layers`
(lines 378-457). -/

/-- Mutable state of the inner etch loop (lines 426-447): the output
container, the accumulated `polygons_to_remove`, and the current value of the
(reused) `layer_index` variable. -/
structure EtchState where
  cont : Container
  toRemove : Region
  layerIdx : LayerId

/-- One iteration of the etch loop (lines 429-447): look up the etch layer,
and when its physical layer id is present in the snapshot, OR its region into
`polygons_to_remove`, reassign `layer_index` to the resolved etch-layer id,
and, when `derived_layer` is truthy, insert the slab (`orig AND etch region`)
under that id.  A missing id (or a `None` id, which is never a snapshot key)
skips the iteration. -/
def etchStep (s : Stack) (snap : Snapshot) (orig : Region) (st : EtchState)
    (en : String) : Except PyError EtchState :=
  match lookupLevel s en with
  | none => .error (.keyErrorStr en)
  | some level =>
    match level.layer with
    | none => .ok st
    | some l =>
      match snapGet snap l with
      | none => .ok st
      | some bPolys =>
        let toRemove := regionOr st.toRemove bPolys
        let idx := get_layer l
        let cont :=
          match level.derived_layer with
          | some _ => containerInsert st.cont idx (regionAnd orig bPolys)
          | none => st.cont
        .ok ⟨cont, toRemove, idx⟩

/-- The etch loop over the `etched_by` list of one target (lines 429-447). -/
def etchLoop (s : Stack) (snap : Snapshot) (orig : Region) :
    EtchState → List String → Except PyError EtchState
  | st, [] => .ok st
  | st, en :: rest =>
    match etchStep s snap orig st en with
    | .error e => .error e
    | .ok st2 => etchLoop s snap orig st2 rest

/-- Lines 420-454: processing of one `unetched_layers_dict` entry.  The target
is looked up in the stack (plain `KeyError` when dangling), its physical id is
looked up in the snapshot (plain `KeyError` when absent, also when the id is
`None`), its original polygons are inserted under its own id, the etch loop
runs, and the residual `orig NOT polygons_to_remove` is inserted under the
final value of `layer_index` (lines 450-451 recompute the same target lookup,
which yields the same values). -/
def processEntry (s : Stack) (snap : Snapshot) (c : Container)
    (entry : String × List String) : Except PyError Container :=
  match lookupLevel s entry.1 with
  | none => .error (.keyErrorStr entry.1)
  | some level =>
    match level.layer with
    | none => .error (.keyErrorLayer none)
    | some tl =>
      match snapGet snap tl with
      | none => .error (.keyErrorLayer (some tl))
      | some polygons =>
        let c1 := containerInsert c tl polygons
        match etchLoop s snap polygons ⟨c1, ∅, tl⟩ entry.2 with
        | .error e => .error e
        | .ok st =>
          .ok (containerInsert st.cont st.layerIdx (regionNot polygons st.toRemove))

/-- The loop over all `unetched_layers_dict` entries (line 420). -/
def processEntries (s : Stack) (snap : Snapshot) :
    Container → EtchDict → Except PyError Container
  | c, [] => .ok c
  | c, entry :: rest =>
    match processEntry s snap c entry with
    | .error e => .error e
    | .ok c2 => processEntries s snap c2 rest

/-- Lines 412-416: `unetched_layer_numbers` — the physical ids of the
unetched layer names whose id is a key of the snapshot (the lookups cannot
fail: the names are keys of the stack dict). -/
def unetchedLayerNumbers (s : Stack) (snap : Snapshot) (unetched : List String) :
    List LayerId :=
  unetched.filterMap fun n =>
    match lookupLevel s n with
    | some level =>
      match level.layer with
      | some l => if (snapGet snap l).isSome then some l else none
      | none => none
    | none => none

/-- Modelled from the spec: `component.extract(layer_numbers)` returns a
component holding only the polygons of the given layers. -/
def componentExtract (snap : Snapshot) (nums : List LayerId) : Container :=
  snap.filter fun p => decide (p.1 ∈ nums)

/-- `get_component_with_derived_layers(component, layer_stack)` (lines
378-457): classify, extract the pure-grow layers present in the snapshot,
then process every `etched_by` entry.  Port copying has no geometric effect
and is not modelled. -/
def get_component_with_derived_layers (s : Stack) (snap : Snapshot) :
    Except PyError Container :=
  let unetched := (builderClassify s).1
  let dict := (builderClassify s).2
  let nums := unetchedLayerNumbers s snap unetched
  let base := componentExtract snap nums
  processEntries s snap base dict

/-- The region stored under a layer id in a successful builder result. -/
def builtAt (r : Except PyError Container) (l : LayerId) : Option Region :=
  match r with
  | .ok c => some (containerGet c l)
  | .error _ => none

/-! ### Spec-side folds describing the etch loop's observable effect. -/

/-- The resolved (id, region) of an etch-layer name when its physical id is
present in the snapshot; `none` when the name is dangling, the id is `None`,
or the id is absent from the snapshot. -/
def etchPresent (s : Stack) (snap : Snapshot) (en : String) :
    Option (LayerId × Region) :=
  match lookupLevel s en with
  | none => none
  | some level =>
    match level.layer with
    | none => none
    | some l =>
      match snapGet snap l with
      | none => none
      | some r => some (l, r)

/-- The union (repeated boolean OR, in list order) of the regions of the etch
layers whose geometry is present in the snapshot. -/
def etchUnionFold (s : Stack) (snap : Snapshot) : Region → List String → Region
  | r, [] => r
  | r, en :: rest =>
    match etchPresent s snap en with
    | some p => etchUnionFold s snap (regionOr r p.2) rest
    | none => etchUnionFold s snap r rest

/-- The final value of the reused `layer_index` variable: the resolved id of
the last etch layer whose geometry is present, else the start value. -/
def etchKeyFold (s : Stack) (snap : Snapshot) : LayerId → List String → LayerId
  | k, [] => k
  | k, en :: rest =>
    match etchPresent s snap en with
    | some p => etchKeyFold s snap (get_layer p.1) rest
    | none => etchKeyFold s snap k rest

/-! ### The 3D-script emitter `get_klayout_3d_script` (lines 186-353). -/

/-- One emitted statement of the KLayout 2.5D script: either a literal text
line (layer declarations and boolean-algebra assignments, whose text involves
no float formatting), or a structured `z(name, zstart: ..., zstop: ...,
name: 'label')` statement holding its numeric fields exactly. -/
inductive Line where
  | str : String → Line
  | z : String → ℚ → ℚ → String → Line
deriving DecidableEq, Repr

/-- Python `f"{material}"` for an optional material (`None` prints `None`). -/
def fmtMaterial : Option String → String
  | some m => m
  | none => "None"

/-- The label `f"{n}: {material} {layer[0]}/{layer[1]}"` used by the z
statements. -/
def zLabel (n : String) (mat : Option String) (l : LayerId) : String :=
  let m := fmtMaterial mat
  let a := l.1
  let b := l.2
  s!"{n}: {m} {a}/{b}"

/-- Line 225: `f"{layer_name} = input({level.layer[0]}, {level.layer[1]})"`. -/
def inputLine (n : String) (l : LayerId) : String :=
  let a := l.1
  let b := l.2
  s!"{n} = input({a}, {b})"

/-- Lines 223-229: one input declaration per level with a truthy `layer`. -/
def inputLines (s : Stack) : List Line :=
  s.filterMap fun p =>
    match p.2.layer with
    | some l => some (.str (inputLine p.1 l))
    | none => none

/-- Lines 235-236: `f"unetched_{x} = {x} - {' - '.join(etching_layers)}"`. -/
def unetchedDefText (t : String) (es : List String) : String :=
  let joined := String.intercalate " - " es
  s!"unetched_{t} = {t} - {joined}"

/-- Lines 234-236: the unetched boolean definitions, one per
`unetched_layers_dict` entry in insertion order. -/
def unetchedDefLines (d : EtchDict) : List Line :=
  d.map fun p => .str (unetchedDefText p.1 p.2)

/-- Line 245: `f"slab_{layer1}_{layer_name}_{i} = {layer1} &amp; {layer_name}"`
(the ampersand is XML-escaped in the source). -/
def slabDefText (t e : String) (i : ℕ) : String :=
  s!"slab_{t}_{e}_{i} = {t} &amp; {e}"

/-- Lines 244-245: `for i, layer1 in enumerate(into)`. -/
def slabDefLinesFor (e : String) : List String → ℕ → List Line
  | [], _ => []
  | t :: ts, i => .str (slabDefText t e i) :: slabDefLinesFor e ts (i + 1)

/-- Lines 241-245: slab definitions for every etch-type level (no layer-id
check in this loop). -/
def slabDefLines : Stack → List Line
  | [] => []
  | p :: rest =>
    (if p.2.layer_type = LayerType.etch then slabDefLinesFor p.1 (p.2.into.getD []) 0
     else []) ++ slabDefLines rest

/-- `f"slab_{layer1}_{layer_name}_{i}"` (line 271). -/
def slabZName (t e : String) (i : ℕ) : String := s!"slab_{t}_{e}_{i}"

/-- `f"unetched_{layer_name}"` (line 331). -/
def unetchedZName (t : String) : String := s!"unetched_{t}"

/-- Decimal rounding `round(x, d)` of Python, on rationals (the inputs used
here are never ties, so bankers rounding and round-half-up agree). -/
def roundTo (d : ℕ) (x : ℚ) : ℚ := ((round (x * 10 ^ d) : ℤ) : ℚ) / 10 ^ d

/-- Lines 253-256: round only when `dbu` is truthy.  The `dbu` argument is
modelled by the number of fractional digits of its decimal representation
(`rnd_pl = len(str(dbu).split(".")[-1])`); `none` models a falsy `dbu`. -/
def roundDbu (dbu : Option ℕ) (x : ℚ) : ℚ :=
  match dbu with
  | some d => roundTo d x
  | none => x

/-- Lines 264-294 (with `layer_views=None`): the slab z statements of one
etch-type level — `for i, layer1 in enumerate(into)`, looking each target up
in the stack dict (plain `KeyError` when dangling) and emitting
`z(slab_..., zstart: target.zmin, zstop: target.zmax - etch.thickness, ...)`
with unrounded values. -/
def zEtchLines (s : Stack) (ename : String) (elv : LayerLevel) (l : LayerId) :
    List String → ℕ → Except PyError (List Line)
  | [], _ => .ok []
  | t :: ts, i =>
    match lookupLevel s t with
    | none => .error (.keyErrorStr t)
    | some ulv =>
      match zEtchLines s ename elv l ts (i + 1) with
      | .error e => .error e
      | .ok rest =>
        .ok (.z (slabZName t ename i) ulv.zmin (ulv.zmin + ulv.thickness - elv.thickness)
              (zLabel (slabZName t ename i) elv.material l) :: rest)

/-- Lines 249-319 (one iteration): compute `zmin`/`zmax` with optional
rounding, skip levels without a layer id, emit slab z statements for etch
levels, and a `z(name, zstart, zstop, ...)` statement for levels still in
`unetched_layers` (with `layer_views=None` no color suffix is emitted). -/
def zEntryLines (s : Stack) (unetched : List String) (dbu : Option ℕ)
    (p : String × LayerLevel) : Except PyError (List Line) :=
  let level := p.2
  let zmin := roundDbu dbu level.zmin
  let zmax := roundDbu dbu (level.zmin + level.thickness)
  match level.layer with
  | none => .ok []
  | some l =>
    if level.layer_type = LayerType.etch then
      zEtchLines s p.1 level l (level.into.getD []) 0
    else if p.1 ∈ unetched then
      .ok [.z p.1 zmin zmax (zLabel p.1 level.material l)]
    else .ok []

/-- Lines 249-319: the main z loop over the stack in order. -/
def zLinesAux (s : Stack) (unetched : List String) (dbu : Option ℕ) :
    List (String × LayerLevel) → Except PyError (List Line)
  | [] => .ok []
  | p :: rest =>
    match zEntryLines s unetched dbu p with
    | .error e => .error e
    | .ok a =>
      match zLinesAux s unetched dbu rest with
      | .error e => .error e
      | .ok b => .ok (a ++ b)

/-- Lines 323-351: the trailing `unetched_<name>` z statements, one per
`unetched_layers_dict` key, taken from the target's own bounds with no
rounding.  The target is looked up in `self.layers` (plain `KeyError` when
dangling); `layer[0]` on a `None` layer raises a `TypeError`. -/
def trailingAux (s : Stack) : EtchDict → Except PyError (List Line)
  | [] => .ok []
  | p :: rest =>
    match lookupLevel s p.1 with
    | none => .error (.keyErrorStr p.1)
    | some ulv =>
      match ulv.layer with
      | none => .error .typeErrorNoneSubscript
      | some l =>
        match trailingAux s rest with
        | .error e => .error e
        | .ok b =>
          .ok (.z (unetchedZName p.1) ulv.zmin (ulv.zmin + ulv.thickness)
                (zLabel (unetchedZName p.1) ulv.material l) :: b)

/-- `get_klayout_3d_script(layer_views=None, dbu)` (lines 186-353): the
emitted script as its list of statements, in order — input declarations,
unetched definitions, slab definitions, the main z loop, the trailing
unetched z statements.  Blank separator lines carry no content and are not
modelled. -/
def get_klayout_3d_script (s : Stack) (dbu : Option ℕ) :
    Except PyError (List Line) :=
  let unetched := (scriptClassify s).1
  let dict := (scriptClassify s).2
  match zLinesAux s unetched dbu s with
  | .error e => .error e
  | .ok p4 =>
    match trailingAux s dict with
    | .error e => .error e
    | .ok p5 =>
      .ok (inputLines s ++ unetchedDefLines dict ++ slabDefLines s ++ p4 ++ p5)

/-- The statements of a successfully emitted script (empty on failure). -/
def scriptLines (r : Except PyError (List Line)) : List Line :=
  match r with
  | .ok ls => ls
  | .error _ => []

/-! ### LayerStack query accessors (lines 121-161).  Python dict keys may be
`None` (a truthy-`layer` check passes exactly when the id is `some`), so the
returned dicts are keyed by `Option LayerId`.  Dict assignment replaces the
value at an existing key in place, else appends. -/

/-- `d[k] = v` on a Python dict. -/
def mapSet {β : Type} : List (Option LayerId × β) → Option LayerId → β →
    List (Option LayerId × β)
  | [], k, v => [(k, v)]
  | p :: rest, k, v =>
    if p.1 = k then (p.1, v) :: rest else p :: mapSet rest k v

/-- Keys of an accessor result. -/
def mapKeys {β : Type} (d : List (Option LayerId × β)) : List (Option LayerId) :=
  d.map Prod.fst

/-- Lines 121-133, `get_layer_to_thickness`: includes a level only when both
`layer` and `thickness` are truthy.  The `elif hasattr(level, "operator")`
branch never fires for `LayerLevel` values (they have no `operator`
attribute) and is therefore not modelled. -/
def get_layer_to_thickness (s : Stack) : List (Option LayerId × ℚ) :=
  s.foldl
    (fun d p =>
      if p.2.layer.isSome && decide (p.2.thickness ≠ 0) then mapSet d p.2.layer p.2.thickness
      else d)
    []

/-- Lines 141-145, `get_layer_to_zmin`: dict comprehension filtered on truthy
`thickness` only. -/
def get_layer_to_zmin (s : Stack) : List (Option LayerId × ℚ) :=
  s.foldl
    (fun d p => if decide (p.2.thickness ≠ 0) then mapSet d p.2.layer p.2.zmin else d)
    []

/-- Lines 147-153, `get_layer_to_material`: same filter, returns the material. -/
def get_layer_to_material (s : Stack) : List (Option LayerId × Option String) :=
  s.foldl
    (fun d p => if decide (p.2.thickness ≠ 0) then mapSet d p.2.layer p.2.material else d)
    []

/-- Lines 155-161, `get_layer_to_sidewall_angle`: same filter, returns the
sidewall angle. -/
def get_layer_to_sidewall_angle (s : Stack) : List (Option LayerId × ℚ) :=
  s.foldl
    (fun d p =>
      if decide (p.2.thickness ≠ 0) then mapSet d p.2.layer p.2.sidewall_angle else d)
    []

/-! ### Concrete fixtures used by counterexamples and witnesses. -/

/-- A grow level on layer `(1, 0)`, `zmin 0`, thickness `1`. -/
def lvGrowT : LayerLevel :=
  { layer := some (1, 0), thickness := 1, zmin := 0, material := some "Si",
    sidewall_angle := 0, layer_type := LayerType.grow, into := none,
    derived_layer := none }

/-- An etch level on layer `(2, 0)`, thickness `1/5`, etching into `T`. -/
def lvEtchE : LayerLevel :=
  { layer := some (2, 0), thickness := 1 / 5, zmin := 0, material := some "Si",
    sidewall_angle := 0, layer_type := LayerType.etch, into := some ["T"],
    derived_layer := none }

/-- Stack with one grow layer `T` etched by one etch layer `E`. -/
def stackTE : Stack := [("T", lvGrowT), ("E", lvEtchE)]

/-- Snapshot holding polygons `{0, 1}` on `T`'s layer and `{1}` on `E`'s. -/
def snapTE : Snapshot := [((1, 0), {0, 1}), ((2, 0), {1})]

/-- Snapshot where the etch target's layer id `(1, 0)` is absent. -/
def snapNoTarget : Snapshot := [((2, 0), {1})]

/-- A single grow layer `G` on `(1, 0)`. -/
def stackG : Stack := [("G", lvGrowT)]

/-- Snapshot with geometry on `G`'s layer and on the unrelated layer `(3, 0)`. -/
def snapG : Snapshot := [((1, 0), {0}), ((3, 0), {1})]

/-- Grow level with `zmin = 0.1234` (four decimal digits) for the rounding
counterexample. -/
def lvGrowFine : LayerLevel :=
  { layer := some (1, 0), thickness := 1, zmin := 617 / 5000, material := some "Si",
    sidewall_angle := 0, layer_type := LayerType.grow, into := none,
    derived_layer := none }

/-- Stack whose etched target has a 4-decimal `zmin` while `dbu` implies 3
digits. -/
def stackFine : Stack := [("T", lvGrowFine), ("E", lvEtchE)]

/-- A level with no layer id but nonzero thickness. -/
def lvNoId : LayerLevel :=
  { layer := none, thickness := 1, zmin := 5, material := some "Si",
    sidewall_angle := 0, layer_type := LayerType.grow, into := none,
    derived_layer := none }

/-- Stack exposing the accessor-filter difference. -/
def stackNoId : Stack := [("A", lvNoId)]

/-- An etch level whose `into` names a layer absent from the stack. -/
def lvEtchDangling : LayerLevel :=
  { layer := some (2, 0), thickness := 1 / 5, zmin := 0, material := some "Si",
    sidewall_angle := 0, layer_type := LayerType.etch, into := some ["X"],
    derived_layer := none }

/-- Stack with a dangling etch reference. -/
def stackDangling : Stack := [("E", lvEtchDangling)]

/-! ### C4: the emitter's classification pass equals the builder's. -/

/-- C4.  For every LayerStack, the `unetched_layers` list and the `etched_by`
mapping computed inside the 3D-script emitter (lines 199-220) are equal to
those computed inside the derived-geometry builder (lines 387-406): the two
independent classification passes always agree. -/
theorem c4_classifications_agree (s : Stack) : scriptClassify s = builderClassify s := rfl

/-! ### C9: accessor inclusion filters. -/

theorem mem_mapKeys_mapSet_self {β : Type} (d : List (Option LayerId × β))
    (k : Option LayerId) (v : β) : k ∈ mapKeys (mapSet d k v) := by
  induction d with
  | nil => simp [mapSet, mapKeys]
  | cons p rest ih =>
    by_cases h : p.1 = k
    · simp [mapSet, mapKeys, h]
    · simp only [mapSet, mapKeys, if_neg h, List.map_cons, List.mem_cons]
      exact Or.inr ih

theorem mem_mapKeys_mapSet_of_mem {β : Type} (d : List (Option LayerId × β))
    (k' k : Option LayerId) (v : β) (h : k' ∈ mapKeys d) :
    k' ∈ mapKeys (mapSet d k v) := by
  induction d with
  | nil => simp [mapKeys] at h
  | cons p rest ih =>
    simp only [mapKeys, List.map_cons, List.mem_cons] at h
    by_cases hp : p.1 = k
    · simp only [mapSet, if_pos hp, mapKeys, List.map_cons, List.mem_cons]
      rcases h with h | h
      · exact Or.inl h
      · exact Or.inr h
    · simp only [mapSet, if_neg hp, mapKeys, List.map_cons, List.mem_cons]
      rcases h with h | h
      · exact Or.inl h
      · exact Or.inr (ih h)

theorem foldl_mapKeys_mono {β : Type}
    {f : List (Option LayerId × β) → String × LayerLevel → List (Option LayerId × β)}
    (hf : ∀ d p k, k ∈ mapKeys d → k ∈ mapKeys (f d p)) :
    ∀ (s : List (String × LayerLevel)) (d : List (Option LayerId × β))
      (k : Option LayerId), k ∈ mapKeys d → k ∈ mapKeys (s.foldl f d)
  | [], _, _, h => h
  | p :: rest, d, k, h => by
    simpa using foldl_mapKeys_mono hf rest (f d p) k (hf d p k h)

theorem foldl_mapKeys_of_mem {β : Type}
    {f : List (Option LayerId × β) → String × LayerLevel → List (Option LayerId × β)}
    (hf : ∀ d p k, k ∈ mapKeys d → k ∈ mapKeys (f d p))
    {q : String × LayerLevel} {k : Option LayerId}
    (hstep : ∀ d, k ∈ mapKeys (f d q)) :
    ∀ (s : List (String × LayerLevel)) (d : List (Option LayerId × β)),
      q ∈ s → k ∈ mapKeys (s.foldl f d)
  | p :: rest, d, hmem => by
    rcases List.mem_cons.mp hmem with h | h
    · subst h
      simpa using foldl_mapKeys_mono hf rest (f d q) k (hstep d)
    · simpa using foldl_mapKeys_of_mem hf hstep rest (f d p) h

/-- C9, counterexample.  The claim states all four accessors use a single
filter (nonzero thickness), so that every level of nonzero thickness yields
an entry in each map.  For the stack with one level of thickness 1 and no
layer id, `get_layer_to_thickness` is empty (its filter also requires a
truthy layer id) while `get_layer_to_zmin` holds an entry. -/
theorem c9_counterexample :
    lvNoId.thickness ≠ 0 ∧ ("A", lvNoId) ∈ stackNoId ∧
      get_layer_to_thickness stackNoId = [] ∧
      get_layer_to_zmin stackNoId = [(none, 5)] := by decide

/-- C9, amended.  `get_layer_to_thickness` includes exactly the levels with a
truthy layer id and nonzero thickness, while the other three accessors filter
on nonzero thickness alone; consequently, for every level with nonzero
thickness AND a defined layer id, each of the four returned mappings contains
an entry keyed by that level's layer id. -/
theorem c9_amended (s : Stack) (name : String) (level : LayerLevel) (l : LayerId)
    (hmem : (name, level) ∈ s) (hth : level.thickness ≠ 0)
    (hl : level.layer = some l) :
    some l ∈ mapKeys (get_layer_to_thickness s) ∧
      some l ∈ mapKeys (get_layer_to_zmin s) ∧
      some l ∈ mapKeys (get_layer_to_material s) ∧
      some l ∈ mapKeys (get_layer_to_sidewall_angle s) := by
  have hcond : decide (level.thickness ≠ 0) = true := by simpa using hth
  refine ⟨?_, ?_, ?_, ?_⟩
  · refine foldl_mapKeys_of_mem ?_ ?_ s [] hmem
    · intro d p k hk
      dsimp only
      split
      · exact mem_mapKeys_mapSet_of_mem _ _ _ _ hk
      · exact hk
    · intro d
      dsimp only
      rw [hl]
      simp only [Option.isSome_some, Bool.true_and, hcond, if_pos]
      exact hl ▸ mem_mapKeys_mapSet_self d (some l) level.thickness
  · refine foldl_mapKeys_of_mem ?_ ?_ s [] hmem
    · intro d p k hk
      dsimp only
      split
      · exact mem_mapKeys_mapSet_of_mem _ _ _ _ hk
      · exact hk
    · intro d
      dsimp only
      rw [hcond, if_pos rfl]
      exact hl ▸ mem_mapKeys_mapSet_self d level.layer level.zmin
  · refine foldl_mapKeys_of_mem ?_ ?_ s [] hmem
    · intro d p k hk
      dsimp only
      split
      · exact mem_mapKeys_mapSet_of_mem _ _ _ _ hk
      · exact hk
    · intro d
      dsimp only
      rw [hcond, if_pos rfl]
      exact hl ▸ mem_mapKeys_mapSet_self d level.layer level.material
  · refine foldl_mapKeys_of_mem ?_ ?_ s [] hmem
    · intro d p k hk
      dsimp only
      split
      · exact mem_mapKeys_mapSet_of_mem _ _ _ _ hk
      · exact hk
    · intro d
      dsimp only
      rw [hcond, if_pos rfl]
      exact hl ▸ mem_mapKeys_mapSet_self d level.layer level.sidewall_angle

/-- C9 witness: the amended statement evaluated on the two-layer stack at the
grow level `T`. -/
theorem c9_amended_witness :
    (("T", lvGrowT) ∈ stackTE ∧ lvGrowT.thickness ≠ 0 ∧
        lvGrowT.layer = some (1, 0)) ∧
      some ((1 : ℤ), (0 : ℤ)) ∈ mapKeys (get_layer_to_thickness stackTE) :=
  ⟨⟨by decide, by decide, by decide⟩,
    (c9_amended stackTE "T" lvGrowT (1, 0) (by decide) (by decide) (by decide)).1⟩

/-! ### C10: dangling `into` references fail the emitter with a plain
key-lookup error. -/

theorem zEtchLines_isSome_of_ok (s : Stack) (e : String) (v : LayerLevel)
    (l : LayerId) :
    ∀ (ts : List String) (i : ℕ) (out : List Line),
      zEtchLines s e v l ts i = .ok out → ∀ t ∈ ts, (lookupLevel s t).isSome
  | [], _, _, _, t, ht => absurd ht (List.not_mem_nil t)
  | t0 :: ts, i, out, hok, t, ht => by
    rcases hlk : lookupLevel s t0 with _ | ulv
    · rw [zEtchLines, hlk] at hok
      exact absurd hok (by simp)
    · rw [zEtchLines, hlk] at hok
      rcases hrest : zEtchLines s e v l ts (i + 1) with e2 | rest
      · rw [hrest] at hok
        exact absurd hok (by simp)
      · rcases List.mem_cons.mp ht with h | h
        · subst h
          simp [hlk]
        · exact zEtchLines_isSome_of_ok s e v l ts (i + 1) rest hrest t h

theorem zEtchLines_error_shape (s : Stack) (e : String) (v : LayerLevel)
    (l : LayerId) :
    ∀ (ts : List String) (i : ℕ),
      (∃ out, zEtchLines s e v l ts i = .ok out) ∨
        (∃ m, zEtchLines s e v l ts i = .error (.keyErrorStr m))
  | [], _ => Or.inl ⟨[], rfl⟩
  | t0 :: ts, i => by
    rcases hlk : lookupLevel s t0 with _ | ulv
    · exact Or.inr ⟨t0, by rw [zEtchLines, hlk]⟩
    · rcases zEtchLines_error_shape s e v l ts (i + 1)
        with ⟨out, hout⟩ | ⟨m, hm⟩
      · exact Or.inl ⟨_, by rw [zEtchLines, hlk, hout]⟩
      · exact Or.inr ⟨m, by rw [zEtchLines, hlk, hm]⟩

theorem zEntryLines_error_shape (s : Stack) (u : List String) (dbu : Option ℕ)
    (p : String × LayerLevel) :
    (∃ out, zEntryLines s u dbu p = .ok out) ∨
      (∃ m, zEntryLines s u dbu p = .error (.keyErrorStr m)) := by
  rcases hl : p.2.layer with _ | l
  · exact Or.inl ⟨[], by simp [zEntryLines, hl]⟩
  · by_cases he : p.2.layer_type = LayerType.etch
    · rcases zEtchLines_error_shape s p.1 p.2 l (p.2.into.getD []) 0
        with ⟨out, hout⟩ | ⟨m, hm⟩
      · exact Or.inl ⟨out, by simp [zEntryLines, hl, he, hout]⟩
      · exact Or.inr ⟨m, by simp [zEntryLines, hl, he, hm]⟩
    · by_cases hu : p.1 ∈ u
      · exact Or.inl ⟨[.z p.1 (roundDbu dbu p.2.zmin) (roundDbu dbu (p.2.zmin + p.2.thickness))
            (zLabel p.1 p.2.material l)], by simp [zEntryLines, hl, he, hu]⟩
      · exact Or.inl ⟨[], by simp [zEntryLines, hl, he, hu]⟩

theorem zLinesAux_error_shape (s : Stack) (u : List String) (dbu : Option ℕ) :
    ∀ sl : List (String × LayerLevel),
      (∃ out, zLinesAux s u dbu sl = .ok out) ∨
        (∃ m, zLinesAux s u dbu sl = .error (.keyErrorStr m))
  | [] => Or.inl ⟨[], rfl⟩
  | p :: rest => by
    rcases zEntryLines_error_shape s u dbu p with ⟨a, ha⟩ | ⟨m, hm⟩
    · rcases zLinesAux_error_shape s u dbu rest with ⟨b, hb⟩ | ⟨m, hm⟩
      · exact Or.inl ⟨a ++ b, by rw [zLinesAux, ha, hb]⟩
      · exact Or.inr ⟨m, by rw [zLinesAux, ha, hm]⟩
    · exact Or.inr ⟨m, by rw [zLinesAux, hm]⟩

theorem zLinesAux_isSome_of_ok (s : Stack) (u : List String) (dbu : Option ℕ) :
    ∀ (sl : List (String × LayerLevel)) (out : List Line),
      zLinesAux s u dbu sl = .ok out →
      ∀ p ∈ sl, ∀ l, p.2.layer = some l → p.2.layer_type = LayerType.etch →
        ∀ t ∈ p.2.into.getD [], (lookupLevel s t).isSome
  | [], _, _, p, hp, _, _, _, _, _ => absurd hp (List.not_mem_nil p)
  | p0 :: rest, out, hok, p, hp, l, hl, he, t, ht => by
    rcases ha : zEntryLines s u dbu p0 with e2 | a
    · rw [zLinesAux, ha] at hok
      exact absurd hok (by simp)
    · rw [zLinesAux, ha] at hok
      rcases hb : zLinesAux s u dbu rest with e2 | b
      · rw [hb] at hok
        exact absurd hok (by simp)
      · rcases List.mem_cons.mp hp with h | h
        · subst h
          simp only [zEntryLines, hl, he, if_true, if_pos] at ha
          exact zEtchLines_isSome_of_ok s p.1 p.2 l (p.2.into.getD []) 0 a ha t ht
        · exact zLinesAux_isSome_of_ok s u dbu rest b hb p h l hl he t ht

/-- C10.  For every LayerStack in which some etch-type level with a defined
layer id has an `into` list naming a layer absent from the stack, the
3D-script emitter fails with a plain `KeyError` (the dict lookup
`layers[layer1]` at the slab z-extent computation), rather than emitting the
script or raising the enumerated-valid-names `ValueError` of
`LayerStack.__getitem__`. -/
theorem c10_dangling_into (s : Stack) (dbu : Option ℕ)
    (h : ∃ p ∈ s, p.2.layer_type = LayerType.etch ∧ p.2.layer.isSome ∧
        ∃ t ∈ p.2.into.getD [], lookupLevel s t = none) :
    ∃ m, get_klayout_3d_script s dbu = .error (.keyErrorStr m) := by
  obtain ⟨p, hp, he, hsome, t, ht, hnone⟩ := h
  rcases zLinesAux_error_shape s (scriptClassify s).1 dbu s with ⟨out, hout⟩ | ⟨m, hm⟩
  · obtain ⟨l, hl⟩ := Option.isSome_iff_exists.mp hsome
    have := zLinesAux_isSome_of_ok s (scriptClassify s).1 dbu s out hout p hp l hl he t ht
    rw [hnone] at this
    exact absurd this (by simp)
  · exact ⟨m, by rw [get_klayout_3d_script, hm]⟩

/-- C10 witness: the one-etch-layer stack whose `into` names the absent layer
`X`; the emitter fails with the plain `KeyError` for `X`. -/
theorem c10_dangling_into_witness :
    (∃ p ∈ stackDangling, p.2.layer_type = LayerType.etch ∧ p.2.layer.isSome ∧
        ∃ t ∈ p.2.into.getD [], lookupLevel stackDangling t = none) ∧
      ∃ m, get_klayout_3d_script stackDangling (some 3) =
        .error (.keyErrorStr m) :=
  ⟨by decide, c10_dangling_into stackDangling (some 3) (by decide)⟩

/-! ### C3: the classification pass — characterization of `unetched_layers`
and `etched_by`. -/

/-- The `into` targets that one etch-layer name contributes (empty for a
dangling name or an empty/absent `into`). -/
def targetsOf (s : Stack) (en : String) : List String :=
  match lookupLevel s en with
  | none => []
  | some level => level.into.getD []

/-- All etch targets of the stack, in iteration order. -/
def allEtchTargets (s : Stack) : List String :=
  (builderEtchList s).flatMap (targetsOf s)

/-- The removal step of the classification loop (`if target in unetched:
unetched.remove(target)`). -/
def eraseStep (u : List String) (t : String) : List String :=
  if t ∈ u then u.erase t else u

/-- The etch-layer names referencing a target, in stack order. -/
def etchRefsFor (s : Stack) (t : String) : List String :=
  (builderEtchList s).filter fun en => decide (t ∈ targetsOf s en)

theorem inner_fold_fst (en : String) :
    ∀ (ts : List String) (st : List String × EtchDict),
      (ts.foldl (builderTargetStep en) st).1 = ts.foldl eraseStep st.1
  | [], _ => rfl
  | t :: ts, st => by
    rw [List.foldl_cons, List.foldl_cons, inner_fold_fst en ts]
    rfl

theorem inner_fold_snd (en : String) :
    ∀ (ts : List String) (st : List String × EtchDict),
      (ts.foldl (builderTargetStep en) st).2 =
        ts.foldl (fun d t => dictAppend d t en) st.2
  | [], _ => rfl
  | t :: ts, st => by
    rw [List.foldl_cons, List.foldl_cons, inner_fold_snd en ts]
    rfl

theorem etchStep_fst (s : Stack) (st : List String × EtchDict) (en : String) :
    (builderEtchStep s st en).1 = (targetsOf s en).foldl eraseStep st.1 := by
  rcases hlk : lookupLevel s en with _ | level
  · simp [builderEtchStep, targetsOf, hlk]
  · simp [builderEtchStep, targetsOf, hlk, inner_fold_fst]

theorem etchStep_snd (s : Stack) (st : List String × EtchDict) (en : String) :
    (builderEtchStep s st en).2 =
      (targetsOf s en).foldl (fun d t => dictAppend d t en) st.2 := by
  rcases hlk : lookupLevel s en with _ | level
  · simp [builderEtchStep, targetsOf, hlk]
  · simp [builderEtchStep, targetsOf, hlk, inner_fold_snd]

theorem classify_fst_general (s : Stack) :
    ∀ (ens : List String) (st : List String × EtchDict),
      (ens.foldl (builderEtchStep s) st).1 =
        (ens.flatMap (targetsOf s)).foldl eraseStep st.1
  | [], _ => rfl
  | en :: ens, st => by
    rw [List.foldl_cons, classify_fst_general s ens, List.flatMap_cons,
      List.foldl_append, etchStep_fst]

theorem erase_fold_filter :
    ∀ (ts : List String) (u : List String), u.Nodup →
      ts.foldl eraseStep u = u.filter fun n => decide (n ∉ ts)
  | [], u, _ => by simp
  | t :: ts, u, hnd => by
    have hstep : eraseStep u t = u.filter (fun n => n != t) := by
      by_cases hmem : t ∈ u
      · rw [eraseStep, if_pos hmem, hnd.erase_eq_filter]
      · rw [eraseStep, if_neg hmem]
        exact (List.filter_eq_self.mpr fun a ha => by
          simp only [bne_iff_ne, ne_eq, decide_eq_true_eq]
          exact fun h => hmem (h ▸ ha)).symm
    rw [List.foldl_cons, hstep,
      erase_fold_filter ts _ (hnd.filter _), List.filter_filter]
    refine List.filter_congr fun a _ => ?_
    by_cases h1 : a = t <;> by_cases h2 : a ∈ ts <;> simp [h1, h2]

theorem dictGet_dictAppend_self :
    ∀ (d : EtchDict) (t e : String),
      dictGet (dictAppend d t e) t = some ((dictGet d t).getD [] ++ [e])
  | [], t, e => by simp [dictAppend, dictGet]
  | p :: rest, t, e => by
    by_cases hp : p.1 = t
    · simp [dictAppend, dictGet, hp]
    · simp only [dictAppend, dictGet, if_neg hp]
      exact dictGet_dictAppend_self rest t e

theorem dictGet_dictAppend_other (t' t : String) (hne : t' ≠ t) :
    ∀ (d : EtchDict) (e : String), dictGet (dictAppend d t e) t' = dictGet d t'
  | [], e => by
    simp only [dictAppend, dictGet]
    rw [if_neg fun h : t = t' => hne h.symm]
  | p :: rest, e => by
    by_cases hp : p.1 = t
    · have hp2 : ¬ p.1 = t' := fun h => hne (by rw [← h, hp])
      simp only [dictAppend, dictGet, if_pos hp, if_neg hp2]
    · simp only [dictAppend, dictGet, if_neg hp]
      by_cases hq : p.1 = t'
      · simp [hq]
      · simp only [if_neg hq]
        exact dictGet_dictAppend_other t' t hne rest e

theorem dict_fold_notmem (en t : String) :
    ∀ (ts : List String) (d : EtchDict), t ∉ ts →
      dictGet (ts.foldl (fun d x => dictAppend d x en) d) t = dictGet d t
  | [], _, _ => rfl
  | x :: ts, d, hnm => by
    have hx : t ≠ x := fun h => hnm (h ▸ List.mem_cons_self x ts)
    rw [List.foldl_cons, dict_fold_notmem en t ts _ (fun h => hnm (List.mem_cons_of_mem x h)),
      dictGet_dictAppend_other t x hx]

theorem dict_fold_mem (en t : String) :
    ∀ (ts : List String) (d : EtchDict), ts.Nodup → t ∈ ts →
      dictGet (ts.foldl (fun d x => dictAppend d x en) d) t =
        some ((dictGet d t).getD [] ++ [en])
  | [], _, _, hmem => absurd hmem (List.not_mem_nil t)
  | x :: ts, d, hnd, hmem => by
    by_cases hx : x = t
    · have hnm : t ∉ ts := hx ▸ (List.nodup_cons.mp hnd).1
      rw [List.foldl_cons, hx, dict_fold_notmem en t ts _ hnm, dictGet_dictAppend_self]
    · have hmem2 : t ∈ ts := by
        rcases List.mem_cons.mp hmem with h | h
        · exact absurd h.symm hx
        · exact h
      rw [List.foldl_cons, dict_fold_mem en t ts _ (List.nodup_cons.mp hnd).2 hmem2,
        dictGet_dictAppend_other t x (fun h => hx h.symm)]

theorem etchStep_dict_get (s : Stack) (st : List String × EtchDict) (en t : String)
    (hnd : (targetsOf s en).Nodup) :
    dictGet (builderEtchStep s st en).2 t =
      if t ∈ targetsOf s en then some ((dictGet st.2 t).getD [] ++ [en])
      else dictGet st.2 t := by
  rw [etchStep_snd]
  by_cases hmem : t ∈ targetsOf s en
  · rw [if_pos hmem, dict_fold_mem en t _ _ hnd hmem]
  · rw [if_neg hmem, dict_fold_notmem en t _ _ hmem]

theorem classify_dict_general (s : Stack) (t : String) :
    ∀ (ens : List String) (st : List String × EtchDict),
      (∀ en ∈ ens, (targetsOf s en).Nodup) →
      dictGet ((ens.foldl (builderEtchStep s) st)).2 t =
        match dictGet st.2 t with
        | none =>
          if (ens.filter fun en => decide (t ∈ targetsOf s en)) = [] then none
          else some (ens.filter fun en => decide (t ∈ targetsOf s en))
        | some cur => some (cur ++ (ens.filter fun en => decide (t ∈ targetsOf s en)))
  | [], st, _ => by
    rw [List.foldl_nil]
    rcases h : dictGet st.2 t with _ | cur <;> simp [h]
  | en :: ens, st, hall => by
    have hnd : (targetsOf s en).Nodup := hall en (List.mem_cons_self en ens)
    have hall2 : ∀ x ∈ ens, (targetsOf s x).Nodup :=
      fun x hx => hall x (List.mem_cons_of_mem en hx)
    rw [List.foldl_cons, classify_dict_general s t ens _ hall2,
      etchStep_dict_get s st en t hnd]
    by_cases hmem : t ∈ targetsOf s en
    · rw [if_pos hmem]
      have hfil : (List.filter (fun en => decide (t ∈ targetsOf s en)) (en :: ens)) =
          en :: (ens.filter fun en => decide (t ∈ targetsOf s en)) := by
        simp [List.filter_cons, hmem]
      rcases h : dictGet st.2 t with _ | cur
      · simp [hfil]
      · simp [hfil]
    · rw [if_neg hmem]
      have hfil : (List.filter (fun en => decide (t ∈ targetsOf s en)) (en :: ens)) =
          ens.filter fun en => decide (t ∈ targetsOf s en) := by
        simp [List.filter_cons, hmem]
      rw [hfil]

theorem builderGrowList_nodup (s : Stack) (hnd : keysNodup s) :
    (builderGrowList s).Nodup :=
  List.Nodup.sublist
    (List.Sublist.map Prod.fst (List.filter_sublist s)) hnd

/-- C3.  For every LayerStack (with the dict-validity hypotheses that keys
are distinct and each `into` list names each target once): `unetched_layers`
equals the ordered grow-layer list minus every name occurring in some etch
layer's `into` list; `etched_by` maps each target to the stack-ordered list
of etch-layer names referencing it (absent exactly when no etch layer
references it); removing an already-removed target is a no-op; and an etch
layer with an empty or absent `into` contributes nothing. -/
theorem c3_classification (s : Stack) (hnd : keysNodup s)
    (hins : ∀ en ∈ builderEtchList s, (targetsOf s en).Nodup) :
    ((builderClassify s).1 =
        (builderGrowList s).filter fun n => decide (n ∉ allEtchTargets s)) ∧
      (∀ t, dictGet (builderClassify s).2 t =
        if etchRefsFor s t = [] then none else some (etchRefsFor s t)) ∧
      (∀ (u : List String) (t : String), t ∉ u → eraseStep u t = u) ∧
      (∀ (st : List String × EtchDict) (en : String) (level : LayerLevel),
        lookupLevel s en = some level → level.into.getD [] = [] →
        builderEtchStep s st en = st) := by
  refine ⟨?_, ?_, ?_, ?_⟩
  · rw [builderClassify, classify_fst_general]
    exact erase_fold_filter _ _ (builderGrowList_nodup s hnd)
  · intro t
    rw [builderClassify, classify_dict_general s t _ _ hins]
    rfl
  · intro u t hnm
    rw [eraseStep, if_neg hnm]
  · intro st en level hlk hinto
    simp [builderEtchStep, hlk, hinto]

/-- C3 witness: the classification of the two-layer stack `T`/`E` evaluated
through the characterization. -/
theorem c3_classification_witness :
    (keysNodup stackTE ∧ ∀ en ∈ builderEtchList stackTE, (targetsOf stackTE en).Nodup) ∧
      (builderClassify stackTE).1 =
        ((builderGrowList stackTE).filter fun n => decide (n ∉ allEtchTargets stackTE)) :=
  ⟨⟨by decide, by decide⟩,
    (c3_classification stackTE (by decide) (by decide)).1⟩

/-! ### C7: stacks with no etch layers. -/

/-- The physical ids of the grow layers with a defined id, in stack order. -/
def growIdsSpec (s : Stack) : List LayerId :=
  s.filterMap fun p =>
    if p.2.layer_type = LayerType.grow then p.2.layer else none

theorem snapGet_filter_mem (ns : List LayerId) :
    ∀ (snap : Snapshot) (l : LayerId),
      snapGet (snap.filter fun p => decide (p.1 ∈ ns)) l =
        if l ∈ ns then snapGet snap l else none
  | [], l => by by_cases h : l ∈ ns <;> simp [snapGet, h]
  | p :: rest, l => by
    by_cases hp : p.1 ∈ ns
    · rw [List.filter_cons_of_pos (by simpa using hp)]
      by_cases hl : p.1 = l
      · rw [snapGet, if_pos hl, snapGet, if_pos hl, if_pos (hl ▸ hp)]
      · rw [snapGet, if_neg hl, snapGet_filter_mem ns rest l]
        by_cases hm : l ∈ ns
        · rw [if_pos hm, if_pos hm, snapGet, if_neg hl]
        · rw [if_neg hm, if_neg hm]
    · rw [List.filter_cons_of_neg (by simpa using hp)]
      rw [snapGet_filter_mem ns rest l]
      by_cases hm : l ∈ ns
      · have hl : ¬ p.1 = l := fun h => hp (h ▸ hm)
        rw [if_pos hm, if_pos hm, snapGet, if_neg hl]
      · rw [if_neg hm, if_neg hm]

theorem lookupLevel_of_mem (s : Stack) (hnd : keysNodup s) :
    ∀ name level, (name, level) ∈ s → lookupLevel s name = some level := by
  induction s with
  | nil => intro name level h; exact absurd h (List.not_mem_nil _)
  | cons p rest ih =>
    intro name level h
    rcases List.mem_cons.mp h with h | h
    · rw [lookupLevel, if_pos (congrArg Prod.fst h.symm)]
      rw [← h]
    · have hp : ¬ p.1 = name := by
        intro he
        have : name ∈ rest.map Prod.fst := List.mem_map.mpr ⟨(name, level), h, rfl⟩
        exact (List.nodup_cons.mp hnd).1 (he ▸ this)
      rw [lookupLevel, if_neg hp]
      exact ih (List.nodup_cons.mp hnd).2 name level h

theorem lookupLevel_mem (s : Stack) :
    ∀ name level, lookupLevel s name = some level → (name, level) ∈ s := by
  induction s with
  | nil => intro name level h; exact absurd h (by simp [lookupLevel])
  | cons p rest ih =>
    intro name level h
    rw [lookupLevel] at h
    by_cases hp : p.1 = name
    · rw [if_pos hp] at h
      exact List.mem_cons.mpr (Or.inl (by rw [← hp, ← Option.some_inj.mp h]))
    · rw [if_neg hp] at h
      exact List.mem_cons.mpr (Or.inr (ih name level h))

theorem mem_unetchedLayerNumbers_iff (s : Stack) (snap : Snapshot)
    (hnd : keysNodup s) (l : LayerId) :
    l ∈ unetchedLayerNumbers s snap (builderGrowList s) ↔
      l ∈ growIdsSpec s ∧ (snapGet snap l).isSome := by
  constructor
  · intro h
    obtain ⟨n, hn, hf⟩ := List.mem_filterMap.mp h
    rw [builderGrowList] at hn
    obtain ⟨p, hp, hmap⟩ := List.mem_map.mp hn
    obtain ⟨hpmem, hcond⟩ := List.mem_filter.mp hp
    have hlk : lookupLevel s p.1 = some p.2 := lookupLevel_of_mem s hnd p.1 p.2
      (by rcases p with ⟨a, b⟩; exact hpmem)
    rw [← hmap] at hf
    rw [hlk] at hf
    dsimp only at hf
    have hgrow : p.2.layer_type = LayerType.grow := by
      have := (Bool.and_eq_true _ _ |>.mp hcond).2
      simpa using this
    rcases hl : p.2.layer with _ | l0
    · rw [hl] at hf
      dsimp only at hf
      exact absurd hf (by simp)
    · rw [hl] at hf
      dsimp only at hf
      by_cases hs : (snapGet snap l0).isSome
      · rw [if_pos hs] at hf
        have : l0 = l := Option.some_inj.mp hf
        subst this
        refine ⟨List.mem_filterMap.mpr ⟨p, hpmem, ?_⟩, hs⟩
        rw [if_pos hgrow, hl]
      · rw [if_neg hs] at hf; exact absurd hf (by simp)
  · rintro ⟨hg, hs⟩
    obtain ⟨p, hp, hf⟩ := List.mem_filterMap.mp hg
    have hgrow : p.2.layer_type = LayerType.grow := by
      by_contra hne
      rw [if_neg hne] at hf
      exact absurd hf (by simp)
    rw [if_pos hgrow] at hf
    refine List.mem_filterMap.mpr ⟨p.1, ?_, ?_⟩
    · refine List.mem_map.mpr ⟨p, List.mem_filter.mpr ⟨hp, ?_⟩, rfl⟩
      rw [hf]
      simp [hgrow]
    · have hlk : lookupLevel s p.1 = some p.2 := lookupLevel_of_mem s hnd p.1 p.2
        (by rcases p with ⟨a, b⟩; exact hp)
      simp [hlk, hf, hs]

theorem builderEtchList_nil (s : Stack)
    (hne : ∀ p ∈ s, p.2.layer_type ≠ LayerType.etch) :
    builderEtchList s = [] := by
  rw [builderEtchList, List.map_eq_nil_iff, List.filter_eq_nil_iff]
  intro p hp
  simp [hne p hp]

/-- C7, counterexample.  The claim states that with no etch-type layers the
builder output equals the input polygons unchanged; but `component.extract`
restricts to the grow-layer ids, so the polygons on the unrelated layer
`(3, 0)` are dropped. -/
theorem c7_counterexample :
    (∀ p ∈ stackG, p.2.layer_type ≠ LayerType.etch) ∧
      builtAt (get_component_with_derived_layers stackG snapG) (3, 0) = some ∅ ∧
      snapGet snapG (3, 0) = some {1} ∧ ({1} : Region) ≠ ∅ := by decide

/-- C7, amended.  For stacks with no etch-type layers, `unetched_layers`
equals the full grow list, the builder succeeds, and its output equals the
input polygons restricted to the grow layers with a defined id (identity on
those layers; geometry on any other layer id is dropped by the extract
step). -/
theorem c7_amended (s : Stack) (snap : Snapshot) (hnd : keysNodup s)
    (hne : ∀ p ∈ s, p.2.layer_type ≠ LayerType.etch) :
    (builderClassify s).1 = builderGrowList s ∧
      ∃ out, get_component_with_derived_layers s snap = .ok out ∧
        ∀ l, containerGet out l =
          if l ∈ growIdsSpec s then (snapGet snap l).getD ∅ else ∅ := by
  have hcl : builderClassify s = (builderGrowList s, []) := by
    rw [builderClassify, builderEtchList_nil s hne, List.foldl_nil]
  refine ⟨by rw [hcl], ?_⟩
  refine ⟨componentExtract snap (unetchedLayerNumbers s snap (builderGrowList s)), ?_, ?_⟩
  · rw [get_component_with_derived_layers, hcl]
    rfl
  · intro l
    rw [containerGet, componentExtract, snapGet_filter_mem]
    by_cases hm : l ∈ unetchedLayerNumbers s snap (builderGrowList s)
    · obtain ⟨hg, hs⟩ := (mem_unetchedLayerNumbers_iff s snap hnd l).mp hm
      rw [if_pos hm, if_pos hg]
    · rw [if_neg hm]
      by_cases hg : l ∈ growIdsSpec s
      · rw [if_pos hg]
        have hs : ¬ (snapGet snap l).isSome := fun hs =>
          hm ((mem_unetchedLayerNumbers_iff s snap hnd l).mpr ⟨hg, hs⟩)
        rcases h : snapGet snap l with _ | r
        · rfl
        · exact absurd (by simp [h]) hs
      · rw [if_neg hg]
        rfl

/-- C7 witness: the amended statement evaluated on the one-grow-layer stack
with an extra snapshot layer. -/
theorem c7_amended_witness :
    (keysNodup stackG ∧ ∀ p ∈ stackG, p.2.layer_type ≠ LayerType.etch) ∧
      (builderClassify stackG).1 = builderGrowList stackG :=
  ⟨⟨by decide, by decide⟩, (c7_amended stackG snapG (by decide) (by decide)).1⟩

/-! ### C2: missing geometry — etch layers are skipped, but a missing
etch-target id raises. -/

theorem processEntry_error_of_missing (s : Stack) (snap : Snapshot)
    (t : String) (es : List String) (level : LayerLevel) (tl : LayerId)
    (hlk : lookupLevel s t = some level) (hl : level.layer = some tl)
    (hs : snapGet snap tl = none) :
    ∀ c : Container,
      processEntry s snap c (t, es) = .error (.keyErrorLayer (some tl)) := by
  intro c
  simp [processEntry, hlk, hl, hs]

theorem processEntries_error_of_entry (s : Stack) (snap : Snapshot)
    (entry : String × List String) (err : PyError)
    (herr : ∀ c : Container, processEntry s snap c entry = .error err) :
    ∀ (dict : EtchDict) (c : Container), entry ∈ dict →
      ∃ e, processEntries s snap c dict = .error e
  | [], _, hmem => absurd hmem (List.not_mem_nil entry)
  | e0 :: rest, c, hmem => by
    rcases h0 : processEntry s snap c e0 with e2 | c2
    · exact ⟨e2, by rw [processEntries, h0]⟩
    · rcases List.mem_cons.mp hmem with h | h
      · rw [← h] at h0
        rw [herr c] at h0
        exact absurd h0 (by simp)
      · obtain ⟨e3, he3⟩ :=
          processEntries_error_of_entry s snap entry err herr rest c2 h
        exact ⟨e3, by rw [processEntries, h0]; exact he3⟩

/-- C2, counterexample.  The claim states a missing etch-target layer id is
skipped and no error is raised; with the target `T`'s id `(1, 0)` absent from
the snapshot, the builder raises the plain `KeyError` from
`polygons_per_layer[layer_index]`. -/
theorem c2_counterexample :
    ("T", ["E"]) ∈ (builderClassify stackTE).2 ∧
      snapGet snapNoTarget (1, 0) = none ∧
      get_component_with_derived_layers stackTE snapNoTarget =
        .error (.keyErrorLayer (some (1, 0))) := by decide

/-- C2, amended.  A referenced etch-layer name whose physical id is `None` or
absent from the snapshot is skipped by the etch loop for that layer only
(treated as an empty region, no error, state unchanged); but a referenced
etch-target whose physical id is absent from the snapshot (or `None`) makes
the builder fail with a key-lookup error. -/
theorem c2_amended (s : Stack) (snap : Snapshot) :
    (∀ (orig : Region) (st : EtchState) (en : String) (level : LayerLevel),
        lookupLevel s en = some level →
        (level.layer = none ∨ ∃ l, level.layer = some l ∧ snapGet snap l = none) →
        etchStep s snap orig st en = .ok st) ∧
      (∀ (t : String) (es : List String) (level : LayerLevel) (tl : LayerId),
        (t, es) ∈ (builderClassify s).2 →
        lookupLevel s t = some level → level.layer = some tl →
        snapGet snap tl = none →
        ∃ e, get_component_with_derived_layers s snap = .error e) := by
  constructor
  · intro orig st en level hlk habs
    rcases habs with hnone | ⟨l, hl, hs⟩
    · simp [etchStep, hlk, hnone]
    · simp [etchStep, hlk, hl, hs]
  · intro t es level tl hmem hlk hl hs
    have herr := processEntry_error_of_missing s snap t es level tl hlk hl hs
    obtain ⟨e, he⟩ := processEntries_error_of_entry s snap (t, es) _ herr
      (builderClassify s).2
      (componentExtract snap (unetchedLayerNumbers s snap (builderClassify s).1))
      hmem
    exact ⟨e, he⟩

/-- C2 witness: on the `T`/`E` stack with the target id absent, the etch-skip
equality holds for `E` against an empty-geometry snapshot, and the builder
fails. -/
theorem c2_amended_witness :
    ((("T", ["E"]) ∈ (builderClassify stackTE).2 ∧
        lookupLevel stackTE "T" = some lvGrowT ∧
        lvGrowT.layer = some (1, 0) ∧ snapGet snapNoTarget (1, 0) = none)) ∧
      ∃ e, get_component_with_derived_layers stackTE snapNoTarget = .error e :=
  ⟨⟨by decide, by decide, by decide, by decide⟩,
    (c2_amended stackTE snapNoTarget).2 "T" ["E"] lvGrowT (1, 0)
      (by decide) (by decide) (by decide) (by decide)⟩

/-! ### C1: where the builder puts the residual and the pre-etch polygons. -/

theorem containerGet_insert_self :
    ∀ (c : Container) (l : LayerId) (r : Region),
      containerGet (containerInsert c l r) l = containerGet c l ∪ r
  | [], l, r => by simp [containerInsert, containerGet, snapGet]
  | p :: rest, l, r => by
    by_cases hp : p.1 = l
    · simp [containerInsert, containerGet, snapGet, hp]
    · simp only [containerInsert, if_neg hp, containerGet, snapGet]
      exact containerGet_insert_self rest l r

theorem containerGet_insert_other (l' l : LayerId) (hne : l' ≠ l) :
    ∀ (c : Container) (r : Region),
      containerGet (containerInsert c l r) l' = containerGet c l'
  | [], r => by
    simp only [containerInsert, containerGet, snapGet]
    rw [if_neg fun h : l = l' => hne h.symm]
  | p :: rest, r => by
    by_cases hp : p.1 = l
    · have hp2 : ¬ p.1 = l' := fun h => hne (by rw [← h, hp])
      simp only [containerInsert, if_pos hp, containerGet, snapGet]
      rw [if_neg hp2, if_neg hp2]
    · simp only [containerInsert, if_neg hp, containerGet, snapGet]
      by_cases hq : p.1 = l'
      · rw [if_pos hq, if_pos hq]
      · rw [if_neg hq, if_neg hq]
        exact containerGet_insert_other l' l hne rest r

theorem subset_containerGet_insert (c : Container) (l : LayerId) (r : Region)
    (l' : LayerId) : containerGet c l' ⊆ containerGet (containerInsert c l r) l' := by
  by_cases h : l' = l
  · subst h
    rw [containerGet_insert_self]
    exact Finset.subset_union_left
  · rw [containerGet_insert_other l' l h]

theorem etchStep_cases (s : Stack) (snap : Snapshot) (orig : Region)
    (st st2 : EtchState) (en : String)
    (h : etchStep s snap orig st en = .ok st2) :
    (etchPresent s snap en = none ∧ st2 = st) ∨
      (∃ l bp, etchPresent s snap en = some (l, bp) ∧
        st2.toRemove = regionOr st.toRemove bp ∧
        st2.layerIdx = get_layer l ∧
        ∀ l', containerGet st.cont l' ⊆ containerGet st2.cont l') := by
  rcases hlk : lookupLevel s en with _ | level
  · rw [etchStep, hlk] at h
    exact absurd h (by simp)
  · rcases hl : level.layer with _ | l
    · left
      refine ⟨by simp [etchPresent, hlk, hl], ?_⟩
      rw [etchStep, hlk] at h
      dsimp only at h
      rw [hl] at h
      dsimp only at h
      exact (Except.ok.inj h).symm
    · rcases hsg : snapGet snap l with _ | bp
      · left
        refine ⟨by simp [etchPresent, hlk, hl, hsg], ?_⟩
        rw [etchStep, hlk] at h
        dsimp only at h
        rw [hl] at h
        dsimp only at h
        rw [hsg] at h
        dsimp only at h
        exact (Except.ok.inj h).symm
      · right
        refine ⟨l, bp, by simp [etchPresent, hlk, hl, hsg], ?_⟩
        rw [etchStep, hlk] at h
        dsimp only at h
        rw [hl] at h
        dsimp only at h
        rw [hsg] at h
        dsimp only at h
        have h2 := (Except.ok.inj h).symm
        subst h2
        refine ⟨rfl, rfl, fun l' => ?_⟩
        dsimp only
        rcases hd : level.derived_layer with _ | dl
        · exact Finset.Subset.refl _
        · exact subset_containerGet_insert st.cont (get_layer l)
            (regionAnd orig bp) l'

theorem etchLoop_effects (s : Stack) (snap : Snapshot) (orig : Region) :
    ∀ (es : List String) (st st2 : EtchState),
      etchLoop s snap orig st es = .ok st2 →
      st2.toRemove = etchUnionFold s snap st.toRemove es ∧
        st2.layerIdx = etchKeyFold s snap st.layerIdx es ∧
        ∀ l, containerGet st.cont l ⊆ containerGet st2.cont l
  | [], st, st2, h => by
    have h2 := (Except.ok.inj h).symm
    subst h2
    exact ⟨rfl, rfl, fun l => Finset.Subset.refl _⟩
  | en :: es, st, st2, h => by
    rw [etchLoop] at h
    rcases hstep : etchStep s snap orig st en with e2 | st1
    · rw [hstep] at h
      exact absurd h (by simp)
    · rw [hstep] at h
      obtain ⟨hrem, hkey, hsub⟩ := etchLoop_effects s snap orig es st1 st2 h
      rcases etchStep_cases s snap orig st st1 en hstep with
        ⟨hpres, rfl⟩ | ⟨l, bp, hpres, hrem1, hkey1, hsub1⟩
      · rw [etchUnionFold, etchKeyFold, hpres]
        exact ⟨hrem, hkey, hsub⟩
      · rw [etchUnionFold, etchKeyFold, hpres]
        refine ⟨?_, ?_, fun l' => (hsub1 l').trans (hsub l')⟩
        · dsimp only
          rw [← hrem1]
          exact hrem
        · dsimp only
          rw [← hkey1]
          exact hkey

theorem processEntry_facts (s : Stack) (snap : Snapshot) (c c2 : Container)
    (t : String) (es : List String) (level : LayerLevel) (tl : LayerId)
    (orig : Region) (hlk : lookupLevel s t = some level)
    (hl : level.layer = some tl) (hs : snapGet snap tl = some orig)
    (h : processEntry s snap c (t, es) = .ok c2) :
    orig ⊆ containerGet c2 tl ∧
      regionNot orig (etchUnionFold s snap ∅ es) ⊆
        containerGet c2 (etchKeyFold s snap tl es) := by
  rw [processEntry] at h
  dsimp only at h
  rw [hlk] at h
  dsimp only at h
  rw [hl] at h
  dsimp only at h
  rw [hs] at h
  dsimp only at h
  rcases hloop : etchLoop s snap orig ⟨containerInsert c tl orig, ∅, tl⟩ es
    with e2 | st
  · rw [hloop] at h
    exact absurd h (by simp)
  · rw [hloop] at h
    obtain ⟨hrem, hkey, hsub⟩ := etchLoop_effects s snap orig es _ st hloop
    have h2 := (Except.ok.inj h).symm
    subst h2
    constructor
    · have h1 : orig ⊆ containerGet (containerInsert c tl orig) tl := by
        rw [containerGet_insert_self]
        exact Finset.subset_union_right
      exact (h1.trans (hsub tl)).trans
        (subset_containerGet_insert st.cont st.layerIdx _ tl)
    · rw [← hrem, ← hkey, containerGet_insert_self]
      exact Finset.subset_union_right

theorem processEntry_mono (s : Stack) (snap : Snapshot) (c c2 : Container)
    (entry : String × List String)
    (h : processEntry s snap c entry = .ok c2) :
    ∀ l, containerGet c l ⊆ containerGet c2 l := by
  intro l
  rw [processEntry] at h
  rcases hlk : lookupLevel s entry.1 with _ | level
  · rw [hlk] at h
    exact absurd h (by simp)
  · rw [hlk] at h
    dsimp only at h
    rcases hl : level.layer with _ | tl
    · rw [hl] at h
      exact absurd h (by simp)
    · rw [hl] at h
      dsimp only at h
      rcases hs : snapGet snap tl with _ | orig
      · rw [hs] at h
        exact absurd h (by simp)
      · rw [hs] at h
        dsimp only at h
        rcases hloop : etchLoop s snap orig ⟨containerInsert c tl orig, ∅, tl⟩ entry.2
          with e2 | st
        · rw [hloop] at h
          exact absurd h (by simp)
        · rw [hloop] at h
          obtain ⟨_, _, hsub⟩ := etchLoop_effects s snap orig entry.2 _ st hloop
          have h2 := (Except.ok.inj h).symm
          subst h2
          exact ((subset_containerGet_insert c tl orig l).trans (hsub l)).trans
            (subset_containerGet_insert st.cont st.layerIdx _ l)

theorem processEntries_mono (s : Stack) (snap : Snapshot) :
    ∀ (dict : EtchDict) (c out : Container),
      processEntries s snap c dict = .ok out →
      ∀ l, containerGet c l ⊆ containerGet out l
  | [], c, out, h, l => by
    have h2 := (Except.ok.inj h).symm
    subst h2
    exact Finset.Subset.refl _
  | e0 :: rest, c, out, h, l => by
    rw [processEntries] at h
    rcases h0 : processEntry s snap c e0 with e2 | c2
    · rw [h0] at h
      exact absurd h (by simp)
    · rw [h0] at h
      exact (processEntry_mono s snap c c2 e0 h0 l).trans
        (processEntries_mono s snap rest c2 out h l)

theorem processEntries_entry_facts (s : Stack) (snap : Snapshot)
    (entry : String × List String) :
    ∀ (dict : EtchDict) (c out : Container),
      processEntries s snap c dict = .ok out → entry ∈ dict →
      ∃ c1 c2, processEntry s snap c1 entry = .ok c2 ∧
        ∀ l, containerGet c2 l ⊆ containerGet out l
  | [], _, _, _, hmem => absurd hmem (List.not_mem_nil entry)
  | e0 :: rest, c, out, h, hmem => by
    rw [processEntries] at h
    rcases h0 : processEntry s snap c e0 with e2 | c2
    · rw [h0] at h
      exact absurd h (by simp)
    · rw [h0] at h
      rcases List.mem_cons.mp hmem with he | he
      · subst he
        exact ⟨c, c2, h0, processEntries_mono s snap rest c2 out h⟩
      · exact processEntries_entry_facts s snap entry rest c2 out h he

/-- C1, counterexample.  The claim states the residual replaces the base
layer under the original id with the pre-etch polygons not retained; on the
`T`/`E` stack the output holds the pre-etch polygons `{0, 1}` under `T`'s id
`(1, 0)` while the residual `{0}` is inserted under the etch layer's id
`(2, 0)` (the reused `layer_index` variable). -/
theorem c1_counterexample :
    ("T", ["E"]) ∈ (builderClassify stackTE).2 ∧
      regionNot {0, 1} {1} = ({0} : Region) ∧
      builtAt (get_component_with_derived_layers stackTE snapTE) (1, 0) =
        some {0, 1} ∧
      builtAt (get_component_with_derived_layers stackTE snapTE) (2, 0) =
        some {0} ∧
      ({0, 1} : Region) ≠ {0} := by decide

/-- C1, amended.  For every successful build and every `etched_by` entry
`(t, es)`: the residual — the target's original polygons minus the union
(repeated boolean OR, in stack order) of the regions of the etch layers in
`es` whose geometry is present (missing ones contribute the empty region) —
is inserted under the final value of the reused `layer_index` variable, i.e.
the resolved id of the LAST etch layer in `es` whose id is present in the
snapshot (the target's own id only when no etch geometry is present); and the
pre-etch polygons ARE inserted and retained under the original layer id. -/
theorem c1_amended (s : Stack) (snap : Snapshot) (t : String)
    (es : List String) (level : LayerLevel) (tl : LayerId) (orig : Region)
    (out : Container)
    (hok : get_component_with_derived_layers s snap = .ok out)
    (hmem : (t, es) ∈ (builderClassify s).2)
    (hlk : lookupLevel s t = some level) (hl : level.layer = some tl)
    (hs : snapGet snap tl = some orig) :
    orig ⊆ containerGet out tl ∧
      regionNot orig (etchUnionFold s snap ∅ es) ⊆
        containerGet out (etchKeyFold s snap tl es) := by
  have hok2 : processEntries s snap
      (componentExtract snap (unetchedLayerNumbers s snap (builderClassify s).1))
      (builderClassify s).2 = .ok out := hok
  obtain ⟨c1, c2, hpe, hsub⟩ :=
    processEntries_entry_facts s snap (t, es) (builderClassify s).2 _ out hok2 hmem
  obtain ⟨h1, h2⟩ :=
    processEntry_facts s snap c1 c2 t es level tl orig hlk hl hs hpe
  exact ⟨h1.trans (hsub tl), h2.trans (hsub _)⟩

/-- C1 witness: the amended statement evaluated on the `T`/`E` stack — the
pre-etch region sits under `(1, 0)` and the residual under `(2, 0)`. -/
theorem c1_amended_witness :
    (get_component_with_derived_layers stackTE snapTE =
        .ok [((1, 0), {0, 1}), ((2, 0), {0})] ∧
        ("T", ["E"]) ∈ (builderClassify stackTE).2) ∧
      ({0, 1} : Region) ⊆
        containerGet [((1, 0), {0, 1}), ((2, 0), {0})] (1, 0) :=
  ⟨⟨by decide, by decide⟩,
    (c1_amended stackTE snapTE "T" ["E"] lvGrowT (1, 0) {0, 1}
        [((1, 0), {0, 1}), ((2, 0), {0})] (by decide) (by decide) (by decide)
        (by decide) (by decide)).1⟩

/-! ### Emitted-line membership lemmas, shared by the script claims. -/

theorem emit_parts (s : Stack) (dbu : Option ℕ) (lines : List Line)
    (hok : get_klayout_3d_script s dbu = .ok lines) :
    ∃ p4 p5, zLinesAux s (scriptClassify s).1 dbu s = .ok p4 ∧
      trailingAux s (scriptClassify s).2 = .ok p5 ∧
      lines = inputLines s ++ unetchedDefLines (scriptClassify s).2 ++
        slabDefLines s ++ p4 ++ p5 := by
  simp only [get_klayout_3d_script] at hok
  rcases h4 : zLinesAux s (scriptClassify s).1 dbu s with e | p4
  · rw [h4] at hok
    exact absurd hok (by simp)
  · rw [h4] at hok
    rcases h5 : trailingAux s (scriptClassify s).2 with e | p5
    · rw [h5] at hok
      exact absurd hok (by simp)
    · rw [h5] at hok
      exact ⟨p4, p5, rfl, rfl, (Except.ok.inj hok).symm⟩

theorem mem_parts_defs {x : Line} {A B C p4 p5 : List Line} (h : x ∈ C) :
    x ∈ A ++ B ++ C ++ p4 ++ p5 := by
  simp only [List.mem_append]
  tauto

theorem mem_parts_udefs {x : Line} {A B C p4 p5 : List Line} (h : x ∈ B) :
    x ∈ A ++ B ++ C ++ p4 ++ p5 := by
  simp only [List.mem_append]
  tauto

theorem mem_parts_zloop {x : Line} {A B C p4 p5 : List Line} (h : x ∈ p4) :
    x ∈ A ++ B ++ C ++ p4 ++ p5 := by
  simp only [List.mem_append]
  tauto

theorem mem_parts_trailing {x : Line} {A B C p4 p5 : List Line} (h : x ∈ p5) :
    x ∈ A ++ B ++ C ++ p4 ++ p5 := by
  simp only [List.mem_append]
  tauto

theorem zLinesAux_sub (s : Stack) (u : List String) (dbu : Option ℕ) :
    ∀ (sl : List (String × LayerLevel)) (out : List Line),
      zLinesAux s u dbu sl = .ok out → ∀ p ∈ sl,
      ∃ a, zEntryLines s u dbu p = .ok a ∧ ∀ x ∈ a, x ∈ out
  | [], _, _, p, hp => absurd hp (List.not_mem_nil p)
  | p0 :: rest, out, h, p, hp => by
    rw [zLinesAux] at h
    rcases ha : zEntryLines s u dbu p0 with e | a
    · rw [ha] at h
      exact absurd h (by simp)
    · rw [ha] at h
      rcases hb : zLinesAux s u dbu rest with e | b
      · rw [hb] at h
        exact absurd h (by simp)
      · rw [hb] at h
        have hout : out = a ++ b := (Except.ok.inj h).symm
        rcases List.mem_cons.mp hp with he | he
        · rw [he]
          exact ⟨a, ha, fun x hx => hout ▸ List.mem_append_left b hx⟩
        · obtain ⟨a2, ha2, hsub⟩ := zLinesAux_sub s u dbu rest b hb p he
          exact ⟨a2, ha2, fun x hx => hout ▸ List.mem_append_right a (hsub x hx)⟩

theorem zEtchLines_mem (s : Stack) (e : String) (v : LayerLevel) (l : LayerId) :
    ∀ (ts : List String) (i j : ℕ) (out : List Line) (t : String) (ulv : LayerLevel),
      zEtchLines s e v l ts i = .ok out → ts.get? j = some t →
      lookupLevel s t = some ulv →
      Line.z (slabZName t e (i + j)) ulv.zmin
        (ulv.zmin + ulv.thickness - v.thickness)
        (zLabel (slabZName t e (i + j)) v.material l) ∈ out
  | [], _, j, _, t, _, _, hget, _ => absurd hget (by simp)
  | t0 :: ts, i, j, out, t, ulv, hok, hget, hlk => by
    rw [zEtchLines] at hok
    rcases hlk0 : lookupLevel s t0 with _ | ulv0
    · rw [hlk0] at hok
      exact absurd hok (by simp)
    · rw [hlk0] at hok
      rcases hrest : zEtchLines s e v l ts (i + 1) with e2 | rest
      · rw [hrest] at hok
        exact absurd hok (by simp)
      · rw [hrest] at hok
        have hout := (Except.ok.inj hok).symm
        cases j with
        | zero =>
          have ht0 : t0 = t := by simpa using hget
          subst ht0
          rw [hlk0] at hlk
          have hulv : ulv0 = ulv := Option.some_inj.mp hlk
          subst hulv
          rw [hout, Nat.add_zero]
          exact List.mem_cons_self _ _
        | succ j2 =>
          have hget2 : ts.get? j2 = some t := by simpa using hget
          have hmem := zEtchLines_mem s e v l ts (i + 1) j2 rest t ulv hrest hget2 hlk
          have harith : i + 1 + j2 = i + (j2 + 1) := by omega
          rw [harith] at hmem
          rw [hout]
          exact List.mem_cons_of_mem _ hmem

theorem trailingAux_mem (s : Stack) :
    ∀ (dict : EtchDict) (out : List Line) (t : String) (es : List String)
      (ulv : LayerLevel) (l : LayerId),
      trailingAux s dict = .ok out → (t, es) ∈ dict →
      lookupLevel s t = some ulv → ulv.layer = some l →
      Line.z (unetchedZName t) ulv.zmin (ulv.zmin + ulv.thickness)
        (zLabel (unetchedZName t) ulv.material l) ∈ out
  | [], _, t, es, _, _, _, hmem, _, _ => absurd hmem (List.not_mem_nil (t, es))
  | p0 :: rest, out, t, es, ulv, l, hok, hmem, hlk, hl => by
    rw [trailingAux] at hok
    rcases hlk0 : lookupLevel s p0.1 with _ | ulv0
    · rw [hlk0] at hok
      exact absurd hok (by simp)
    · rw [hlk0] at hok
      dsimp only at hok
      rcases hl0 : ulv0.layer with _ | l0
      · rw [hl0] at hok
        exact absurd hok (by simp)
      · rw [hl0] at hok
        dsimp only at hok
        rcases hrest : trailingAux s rest with e2 | b
        · rw [hrest] at hok
          exact absurd hok (by simp)
        · rw [hrest] at hok
          have hout := (Except.ok.inj hok).symm
          rcases List.mem_cons.mp hmem with he | he
          · have ht : t = p0.1 := congrArg Prod.fst he
            rw [← ht] at hlk0
            have hu : ulv0 = ulv := Option.some_inj.mp (hlk0.symm.trans hlk)
            subst hu
            have hll : l0 = l := Option.some_inj.mp (hl0.symm.trans hl)
            subst hll
            rw [hout, ht]
            exact List.mem_cons_self _ _
          · have hmem2 := trailingAux_mem s rest b t es ulv l hrest he hlk hl
            rw [hout]
            exact List.mem_cons_of_mem _ hmem2

theorem zEntryLines_etch (s : Stack) (u : List String) (dbu : Option ℕ)
    (name : String) (lv : LayerLevel) (l : LayerId) (hl : lv.layer = some l)
    (het : lv.layer_type = LayerType.etch) :
    zEntryLines s u dbu (name, lv) =
      zEtchLines s name lv l (lv.into.getD []) 0 := by
  simp [zEntryLines, hl, het]

theorem zEntryLines_grow (s : Stack) (u : List String) (dbu : Option ℕ)
    (name : String) (lv : LayerLevel) (l : LayerId) (hl : lv.layer = some l)
    (hne : lv.layer_type ≠ LayerType.etch) (hu : name ∈ u) :
    zEntryLines s u dbu (name, lv) =
      .ok [Line.z name (roundDbu dbu lv.zmin) (roundDbu dbu (lv.zmin + lv.thickness))
        (zLabel name lv.material l)] := by
  simp [zEntryLines, hl, hne, hu]

/-! ### C6: the z-extents of slab and unetched statements. -/

/-- C6.  Whenever the emitter succeeds: each slab z statement spans from the
target layer's `zmin` to the target's `zmax` minus the etch layer's
thickness, and each consumed grown layer's `unetched_<name>` z statement uses
that grown layer's own bounds (`zmin` to `zmin + thickness`), independent of
any etch layer's thickness. -/
theorem c6_z_extents (s : Stack) (dbu : Option ℕ) (lines : List Line)
    (hok : get_klayout_3d_script s dbu = .ok lines) :
    (∀ (name : String) (lv : LayerLevel) (l : LayerId) (i : ℕ) (t : String)
        (ulv : LayerLevel),
      (name, lv) ∈ s → lv.layer_type = LayerType.etch → lv.layer = some l →
      (lv.into.getD []).get? i = some t → lookupLevel s t = some ulv →
      Line.z (slabZName t name i) ulv.zmin
        (ulv.zmin + ulv.thickness - lv.thickness)
        (zLabel (slabZName t name i) lv.material l) ∈ lines) ∧
      (∀ (t : String) (es : List String) (ulv : LayerLevel) (l : LayerId),
        (t, es) ∈ (scriptClassify s).2 → lookupLevel s t = some ulv →
        ulv.layer = some l →
        Line.z (unetchedZName t) ulv.zmin (ulv.zmin + ulv.thickness)
          (zLabel (unetchedZName t) ulv.material l) ∈ lines) := by
  obtain ⟨p4, p5, h4, h5, hparts⟩ := emit_parts s dbu lines hok
  constructor
  · intro name lv l i t ulv hmem het hlay hget hlk
    obtain ⟨a, ha, hsub⟩ := zLinesAux_sub s (scriptClassify s).1 dbu s p4 h4
      (name, lv) hmem
    rw [zEntryLines_etch s (scriptClassify s).1 dbu name lv l hlay het] at ha
    have hline := zEtchLines_mem s name lv l (lv.into.getD []) 0 i a t ulv ha hget hlk
    rw [Nat.zero_add] at hline
    rw [hparts]
    exact mem_parts_zloop (hsub _ hline)
  · intro t es ulv l hmem hlk hl
    have hline := trailingAux_mem s (scriptClassify s).2 p5 t es ulv l h5 hmem hlk hl
    rw [hparts]
    exact mem_parts_trailing hline

/-- C6 witness: on the `T`/`E` stack the slab z statement spans
`[0, 1 - 1/5]` and the unetched one `[0, 1]`. -/
theorem c6_z_extents_witness :
    (get_klayout_3d_script stackTE (some 3) = .ok
        [.str "T = input(1, 0)", .str "E = input(2, 0)",
          .str "unetched_T = T - E", .str "slab_T_E_0 = T &amp; E",
          .z "slab_T_E_0" 0 (4 / 5) "slab_T_E_0: Si 2/0",
          .z "unetched_T" 0 1 "unetched_T: Si 1/0"] ∧
        ("E", lvEtchE) ∈ stackTE ∧ lookupLevel stackTE "T" = some lvGrowT) ∧
      Line.z (slabZName "T" "E" 0) lvGrowT.zmin
        (lvGrowT.zmin + lvGrowT.thickness - lvEtchE.thickness)
        (zLabel (slabZName "T" "E" 0) lvEtchE.material (2, 0)) ∈
        [Line.str "T = input(1, 0)", .str "E = input(2, 0)",
          .str "unetched_T = T - E", .str "slab_T_E_0 = T &amp; E",
          .z "slab_T_E_0" 0 (4 / 5) "slab_T_E_0: Si 2/0",
          .z "unetched_T" 0 1 "unetched_T: Si 1/0"] :=
  ⟨⟨by decide, by decide, by decide⟩,
    (c6_z_extents stackTE (some 3) _ (by decide)).1 "E" lvEtchE (2, 0) 0 "T"
      lvGrowT (by decide) (by decide) (by decide) (by decide) (by decide)⟩

/-! ### C5: which z statements are rounded. -/

/-- A single fine-zmin grow layer, not etched. -/
def stackFineG : Stack := [("G", lvGrowFine)]

/-- C5, counterexample.  The claim states every `z(...)` statement's
`zstart`/`zstop` is rounded to the digits implied by `dbu`; with `dbu`
implying 3 digits, the emitted slab z statement carries the unrounded
4-decimal `zstart = 0.1234`. -/
theorem c5_counterexample :
    Line.z "slab_T_E_0" (617 / 5000) (4617 / 5000) "slab_T_E_0: Si 2/0" ∈
      scriptLines (get_klayout_3d_script stackFine (some 3)) ∧
      roundTo 3 (617 / 5000) ≠ 617 / 5000 := by decide

/-- C5, amended.  When a database-unit quantum is supplied, the rounding is
applied to the `zstart`/`zstop` of the pure-grow z statements only (zmin and
zmax alike); the slab z statements and the trailing `unetched_<name>` z
statements are emitted with the unrounded values. -/
theorem c5_amended (s : Stack) (d : ℕ) (lines : List Line)
    (hok : get_klayout_3d_script s (some d) = .ok lines) :
    (∀ (name : String) (lv : LayerLevel) (l : LayerId),
        (name, lv) ∈ s → lv.layer = some l →
        lv.layer_type ≠ LayerType.etch → name ∈ (scriptClassify s).1 →
        Line.z name (roundTo d lv.zmin) (roundTo d (lv.zmin + lv.thickness))
          (zLabel name lv.material l) ∈ lines) ∧
      (∀ (name : String) (lv : LayerLevel) (l : LayerId) (i : ℕ) (t : String)
          (ulv : LayerLevel),
        (name, lv) ∈ s → lv.layer_type = LayerType.etch → lv.layer = some l →
        (lv.into.getD []).get? i = some t → lookupLevel s t = some ulv →
        Line.z (slabZName t name i) ulv.zmin
          (ulv.zmin + ulv.thickness - lv.thickness)
          (zLabel (slabZName t name i) lv.material l) ∈ lines) ∧
      (∀ (t : String) (es : List String) (ulv : LayerLevel) (l : LayerId),
        (t, es) ∈ (scriptClassify s).2 → lookupLevel s t = some ulv →
        ulv.layer = some l →
        Line.z (unetchedZName t) ulv.zmin (ulv.zmin + ulv.thickness)
          (zLabel (unetchedZName t) ulv.material l) ∈ lines) := by
  obtain ⟨p4, p5, h4, h5, hparts⟩ := emit_parts s (some d) lines hok
  refine ⟨?_, ?_, ?_⟩
  · intro name lv l hmem hlay hne hu
    obtain ⟨a, ha, hsub⟩ := zLinesAux_sub s (scriptClassify s).1 (some d) s p4 h4
      (name, lv) hmem
    rw [zEntryLines_grow s (scriptClassify s).1 (some d) name lv l hlay hne hu] at ha
    have ha2 := (Except.ok.inj ha).symm
    simp only [roundDbu] at ha2
    rw [hparts]
    refine mem_parts_zloop (hsub _ ?_)
    rw [ha2]
    exact List.mem_cons_self _ _
  · intro name lv l i t ulv hmem het hlay hget hlk
    obtain ⟨a, ha, hsub⟩ := zLinesAux_sub s (scriptClassify s).1 (some d) s p4 h4
      (name, lv) hmem
    rw [zEntryLines_etch s (scriptClassify s).1 (some d) name lv l hlay het] at ha
    have hline := zEtchLines_mem s name lv l (lv.into.getD []) 0 i a t ulv ha hget hlk
    rw [Nat.zero_add] at hline
    rw [hparts]
    exact mem_parts_zloop (hsub _ hline)
  · intro t es ulv l hmem hlk hl
    have hline := trailingAux_mem s (scriptClassify s).2 p5 t es ulv l h5 hmem hlk hl
    rw [hparts]
    exact mem_parts_trailing hline

/-- C5 witness: on the single fine-zmin grow layer with `dbu` implying 3
digits, the grow z statement carries the rounded bounds `0.123`/`1.123`. -/
theorem c5_amended_witness :
    (get_klayout_3d_script stackFineG (some 3) = .ok
        [.str "G = input(1, 0)",
          .z "G" (123 / 1000) (1123 / 1000) "G: Si 1/0"] ∧
        ("G", lvGrowFine) ∈ stackFineG ∧ "G" ∈ (scriptClassify stackFineG).1) ∧
      Line.z "G" (roundTo 3 lvGrowFine.zmin)
        (roundTo 3 (lvGrowFine.zmin + lvGrowFine.thickness))
        (zLabel "G" lvGrowFine.material (1, 0)) ∈
        [Line.str "G = input(1, 0)",
          .z "G" (123 / 1000) (1123 / 1000) "G: Si 1/0"] :=
  ⟨⟨by decide, by decide, by decide⟩,
    (c5_amended stackFineG 3 _ (by decide)).1 "G" lvGrowFine (1, 0)
      (by decide) (by decide) (by decide) (by decide)⟩

/-! ### C8: the exact text of the boolean-definition lines. -/

theorem slabDefLinesFor_mem (e : String) :
    ∀ (ts : List String) (i j : ℕ) (t : String), ts.get? j = some t →
      Line.str (slabDefText t e (i + j)) ∈ slabDefLinesFor e ts i
  | [], _, j, t, hget => absurd hget (by simp)
  | t0 :: ts, i, j, t, hget => by
    cases j with
    | zero =>
      have ht0 : t0 = t := by simpa using hget
      subst ht0
      rw [slabDefLinesFor, Nat.add_zero]
      exact List.mem_cons_self _ _
    | succ j2 =>
      have hget2 : ts.get? j2 = some t := by simpa using hget
      have hmem := slabDefLinesFor_mem e ts (i + 1) j2 t hget2
      have harith : i + 1 + j2 = i + (j2 + 1) := by omega
      rw [harith] at hmem
      rw [slabDefLinesFor]
      exact List.mem_cons_of_mem _ hmem

theorem slabDefLines_mem (name : String) (lv : LayerLevel) (i : ℕ) (t : String)
    (het : lv.layer_type = LayerType.etch)
    (hget : (lv.into.getD []).get? i = some t) :
    ∀ s : Stack, (name, lv) ∈ s →
      Line.str (slabDefText t name i) ∈ slabDefLines s
  | [], hmem => absurd hmem (List.not_mem_nil (name, lv))
  | p :: rest, hmem => by
    rw [slabDefLines]
    rcases List.mem_cons.mp hmem with he | he
    · refine List.mem_append_left _ ?_
      rw [← he, if_pos het]
      have hmem2 := slabDefLinesFor_mem name (lv.into.getD []) 0 i t hget
      rw [Nat.zero_add] at hmem2
      exact hmem2
    · exact List.mem_append_right _ (slabDefLines_mem name lv i t het hget rest he)

theorem unetchedDefLines_mem (t : String) (es : List String) (d : EtchDict)
    (hmem : (t, es) ∈ d) :
    Line.str (unetchedDefText t es) ∈ unetchedDefLines d :=
  List.mem_map.mpr ⟨(t, es), hmem, rfl⟩

/-- C8, counterexample.  The claim states slab definitions use the
single-character operator `&`; the emitted line uses the XML-escaped
`&amp;` instead. -/
theorem c8_counterexample :
    Line.str "slab_T_E_0 = T &amp; E" ∈
      scriptLines (get_klayout_3d_script stackTE (some 3)) ∧
      "slab_T_E_0 = T &amp; E" ≠ "slab_T_E_0 = T & E" := by decide

/-- C8, amended.  Whenever the emitter succeeds, every slab definition line
has exactly the form `slab_<target>_<etch>_<i> = <target> &amp; <etch>` (the
intersection operator is emitted XML-escaped as `&amp;`, not as the single
character `&`), and every unetched definition uses the plain `-`
subtraction operator (`unetched_<t> = <t> - e1 - e2 - ...`). -/
theorem c8_amended (s : Stack) (dbu : Option ℕ) (lines : List Line)
    (hok : get_klayout_3d_script s dbu = .ok lines) :
    (∀ (name : String) (lv : LayerLevel) (i : ℕ) (t : String),
        (name, lv) ∈ s → lv.layer_type = LayerType.etch →
        (lv.into.getD []).get? i = some t →
        Line.str (slabDefText t name i) ∈ lines) ∧
      (∀ (t : String) (es : List String), (t, es) ∈ (scriptClassify s).2 →
        Line.str (unetchedDefText t es) ∈ lines) := by
  obtain ⟨p4, p5, h4, h5, hparts⟩ := emit_parts s dbu lines hok
  constructor
  · intro name lv i t hmem het hget
    rw [hparts]
    exact mem_parts_defs (slabDefLines_mem name lv i t het hget s hmem)
  · intro t es hmem
    rw [hparts]
    exact mem_parts_udefs (unetchedDefLines_mem t es (scriptClassify s).2 hmem)

/-- C8 witness: the slab definition of the `T`/`E` stack, with the escaped
ampersand. -/
theorem c8_amended_witness :
    (get_klayout_3d_script stackTE (some 3) = .ok
        [.str "T = input(1, 0)", .str "E = input(2, 0)",
          .str "unetched_T = T - E", .str "slab_T_E_0 = T &amp; E",
          .z "slab_T_E_0" 0 (4 / 5) "slab_T_E_0: Si 2/0",
          .z "unetched_T" 0 1 "unetched_T: Si 1/0"] ∧
        ("E", lvEtchE) ∈ stackTE) ∧
      Line.str (slabDefText "T" "E" 0) ∈
        [Line.str "T = input(1, 0)", .str "E = input(2, 0)",
          .str "unetched_T = T - E", .str "slab_T_E_0 = T &amp; E",
          .z "slab_T_E_0" 0 (4 / 5) "slab_T_E_0: Si 2/0",
          .z "unetched_T" 0 1 "unetched_T: Si 1/0"] :=
  ⟨⟨by decide, by decide⟩,
    (c8_amended stackTE (some 3) _ (by decide)).1 "E" lvEtchE 0 "T"
      (by decide) (by decide) (by decide)⟩

end GdsSpec
